import Mathlib

/-!
Shallow embedding of the `AsyncQueue` class of `@herrevilkitten/async-queue`
(`src/async-queue.ts`).  The queue holds three parallel JavaScript arrays:
`list` (buffered values), `resolveList` (resolve callbacks of pending
`next()` promises) and `rejectList` (reject callbacks of those promises).
Promises are modelled by numeric identifiers handed out by a counter
(`nextId`); invoking a promise's resolve or reject callback is modelled as
an emitted `Event`.  JavaScript truthiness on the element type is a
parameter `falsy : α → Bool`, because `next()` tests the shifted value with
a bare `if (data)`, and `undefined` (the result of shifting an empty array)
is modelled by `Option.none`.  `setTimeout` timers armed by `next(timeout)`
are recorded in `timers` and elapse through an explicit `fireTimer` step.
-/

namespace AsyncQueueSpec

/-- The two error values the queue can deliver to a reject callback:
`new Error("Queue cleared")` from `clear()` and `new Error("Timeout")`
from an elapsed `setTimeout` in `next(timeout)`. -/
inductive QErr where
  | cleared : QErr
  | timeout : QErr
deriving DecidableEq

/-- An observable callback invocation: `resolveCall p v` means the resolve
callback of the promise with identifier `p` was invoked with value `v`;
`rejectCall p e` means its reject callback was invoked with error `e`.
By JavaScript promise semantics only the first invocation targeting a
given promise settles it; later invocations are no-ops. -/
inductive Event (α : Type) where
  | resolveCall : Nat → α → Event α
  | rejectCall : Nat → QErr → Event α
deriving DecidableEq

/-- State of one `AsyncQueue<T>` instance.  `list`, `resolveList` and
`rejectList` are the three arrays of the class (callbacks stand as the
promise identifiers that own them); `timers` holds the identifiers of
waiters whose `setTimeout` is armed and has not yet fired; `nextId` is the
model's counter producing a fresh identifier for each promise created by
`next()`. -/
structure AsyncQueue (α : Type) where
  list : List α
  resolveList : List Nat
  rejectList : List Nat
  timers : List Nat
  nextId : Nat
deriving DecidableEq

/-- The constructor `new AsyncQueue(initial?)`: pushes the seed values onto
`list` in order; all other fields start empty. -/
def initQ {α : Type} (initial : List α) : AsyncQueue α :=
  ⟨initial, [], [], [], 0⟩

/-- JavaScript truthiness of `timeout?: number`: `undefined` and `0` are
falsy, every other number is truthy (`if (timeout)` in `next`). -/
def jsTruthyNat : Option Nat → Bool
  | none => false
  | some n => n != 0

/-- JavaScript truthiness of the value returned by `list.shift()`:
`undefined` (empty list) is falsy, a present value `v` is truthy exactly
when `falsy v` is false (`if (data)` in `next`). -/
def truthy {α : Type} (falsy : α → Bool) : Option α → Bool
  | none => false
  | some v => !falsy v

/-- `add(data)`: if `resolveList` is non-empty, shift the oldest resolve
callback and invoke it with `data` (the shifted callback of a non-empty
array is always defined, so the `if (resolve)` guard always passes);
`rejectList` is not touched.  Otherwise push `data` onto `list`. -/
def add {α : Type} (s : AsyncQueue α) (v : α) : AsyncQueue α × List (Event α) :=
  match s.resolveList with
  | r :: rest => ({ s with resolveList := rest }, [Event.resolveCall r v])
  | [] => ({ s with list := s.list ++ [v] }, [])

/-- The suspension path of `next(timeout)`: push the promise's resolve and
reject callbacks (identifier `p`) onto `resolveList` and `rejectList`, and
arm a `setTimeout` for `p` exactly when `timeout` is truthy. -/
def registerWaiter {α : Type} (s : AsyncQueue α) (p : Nat) (timeout : Option Nat) :
    AsyncQueue α :=
  { s with
    resolveList := s.resolveList ++ [p]
    rejectList := s.rejectList ++ [p]
    timers := if jsTruthyNat timeout then s.timers ++ [p] else s.timers }

/-- `next(timeout?)`: create a promise with fresh identifier `s.nextId`,
shift `list` (`const data = this.list.shift()`), and test the shifted
value with `if (data)`: when it is truthy, resolve the promise with it;
otherwise (empty list, or a falsy head that `shift` already removed)
register the promise as a waiter. -/
def next {α : Type} (falsy : α → Bool) (s : AsyncQueue α) (timeout : Option Nat) :
    AsyncQueue α × List (Event α) :=
  let p := s.nextId
  let s1 : AsyncQueue α := { s with list := s.list.tail, nextId := p + 1 }
  match s.list.head? with
  | some v =>
      if falsy v then (registerWaiter s1 p timeout, [])
      else (s1, [Event.resolveCall p v])
  | none => (registerWaiter s1 p timeout, [])

/-- The `setTimeout` callback armed for waiter `p` by `next(timeout)`,
firing when the timeout elapses: if the timer is still armed, look up
`resolveList.indexOf(resolve)`; when found, splice that index out of BOTH
`resolveList` and `rejectList` and invoke `reject(new Error("Timeout"))`.
Note the splice into `rejectList` uses the index found in `resolveList`. -/
def fireTimer {α : Type} (s : AsyncQueue α) (p : Nat) : AsyncQueue α × List (Event α) :=
  if p ∈ s.timers then
    let s1 : AsyncQueue α := { s with timers := s.timers.erase p }
    let i := List.indexOf p s1.resolveList
    if i < s1.resolveList.length then
      ({ s1 with
          resolveList := s1.resolveList.eraseIdx i
          rejectList := s1.rejectList.eraseIdx i },
       [Event.rejectCall p QErr.timeout])
    else (s1, [])
  else (s, [])

/-- `clear()`: empty `list`, invoke every callback in `rejectList` with
`new Error("Queue cleared")` in order, then empty `resolveList` and
`rejectList`.  Armed timers are not cancelled (their later firing finds
nothing in `resolveList` and is a no-op). -/
def clear {α : Type} (s : AsyncQueue α) : AsyncQueue α × List (Event α) :=
  ({ s with list := [], resolveList := [], rejectList := [] },
   s.rejectList.map fun p => Event.rejectCall p QErr.cleared)

/-- `peek()`: `this.list[0]`, `undefined` on an empty list. -/
def peek {α : Type} (s : AsyncQueue α) : Option α :=
  s.list.head?

/-- The `size` getter: `this.list.length`. -/
def size {α : Type} (s : AsyncQueue α) : Nat :=
  s.list.length

/-- The `isEmpty` getter: `this.list.length === 0`. -/
def isEmpty {α : Type} (s : AsyncQueue α) : Bool :=
  s.list.length == 0

/-- One externally triggered step on the queue: a public method call, or
the elapsing of an armed timeout. -/
inductive Op (α : Type) where
  | add : α → Op α
  | next : Option Nat → Op α
  | peek : Op α
  | clear : Op α
  | fireTimer : Nat → Op α

/-- Apply one operation to the state, returning the new state and the
callback invocations it performs. -/
def step {α : Type} (falsy : α → Bool) (s : AsyncQueue α) : Op α → AsyncQueue α × List (Event α)
  | Op.add v => add s v
  | Op.next t => next falsy s t
  | Op.peek => (s, [])
  | Op.clear => clear s
  | Op.fireTimer p => fireTimer s p

/-- Run a sequence of operations, accumulating the emitted events in
order. -/
def run {α : Type} (falsy : α → Bool) (s : AsyncQueue α) :
    List (Op α) → AsyncQueue α × List (Event α)
  | [] => (s, [])
  | op :: ops =>
      ((run falsy (step falsy s op).1 ops).1,
       (step falsy s op).2 ++ (run falsy (step falsy s op).1 ops).2)

/-- JavaScript truthiness on numbers: `0` is the falsy number.  Used to
instantiate the element type at `Nat` in concrete runs. -/
def natFalsy : Nat → Bool := fun n => n == 0

/-- The promise identifiers `n, n+1, ..., n+k-1`, the identifiers handed
out by `k` consecutive `next()` calls starting at counter value `n`. -/
def pidRange : Nat → Nat → List Nat
  | _, 0 => []
  | n, k + 1 => n :: pidRange (n + 1) k

/-- Modelled from the spec: the asynchronous iterator of the queue is not
among the sources (only its tests and README mention
`Symbol.asyncIterator`); per the spec each iteration step is equivalent to
calling `next()` with no timeout, except that a step failing with
`ClearedError` terminates the sequence normally instead of propagating the
failure.  This function runs such an iteration over a queue whose producer
has finished adding and will `clear()` once the consumer's pull suspends:
while `next()` resolves immediately the resolved value is consumed; when a
pull suspends, the pending `clear()` aborts that waiter with
`ClearedError` and the iteration ends normally.  Returns the consumed
values and whether the iteration terminated normally. -/
def iterateAux {α : Type} (falsy : α → Bool) : Nat → AsyncQueue α → List α × Bool
  | 0, _ => ([], false)
  | fuel + 1, s =>
      match (next falsy s none).2 with
      | [Event.resolveCall _ v] =>
          let r := iterateAux falsy fuel (next falsy s none).1
          (v :: r.1, r.2)
      | _ => ([], true)

/-- Modelled from the spec: the iteration of `iterateAux` with enough fuel
to drain the whole buffer (each immediately-resolving step removes one
buffered value, so `size + 1` steps suffice). -/
def iterate {α : Type} (falsy : α → Bool) (s : AsyncQueue α) : List α × Bool :=
  iterateAux falsy (s.list.length + 1) s

end AsyncQueueSpec

namespace AsyncQueueSpec

/-! Theorems settling the claims. -/

/-- Claim C1 fails on the code: on a queue whose buffer holds the single
falsy head `0`, `next()` shifts `0` out of the buffer but the `if (data)`
truthiness test then takes the suspension branch, so no resolve callback
is invoked (the head value is silently dropped) and the caller IS
registered as a waiter, contradicting the claim that `next()` on a
non-empty buffer resolves with the head value without registering a
waiter, for every head value including falsy ones. -/
theorem next_drops_falsy_head :
    (run natFalsy (initQ [0]) [Op.next none]).2 = [] ∧
    (run natFalsy (initQ [0]) [Op.next none]).1.list = [] ∧
    (run natFalsy (initQ [0]) [Op.next none]).1.resolveList = [0] := by
  refine ⟨rfl, rfl, rfl⟩

/-- Claim C2 fails on the code: invariant I1 (`list` non-empty implies
`resolveList` empty) is violated in a reachable state.  Seeding the queue
with `[0, 1]` and issuing one `next()` call shifts the falsy head `0`,
drops it, and registers a waiter, leaving `list = [1]` non-empty and
`resolveList = [0]` non-empty at the same time. -/
theorem invariant_I1_violated :
    (run natFalsy (initQ [0, 1]) [Op.next none]).1.list = [1] ∧
    (run natFalsy (initQ [0, 1]) [Op.next none]).1.resolveList = [0] := by
  refine ⟨rfl, rfl⟩

/-- Claim C3 fails on the code: invariant I2 is violated in a reachable
run.  After `next()` registers waiter `0` and `add 7` fulfils it, `add`
shifts only `resolveList`, leaving waiter `0`'s reject callback in
`rejectList`; a subsequent `clear()` then invokes that reject callback
again, so a fulfilled waiter is neither removed from all waiter-tracking
structures nor left uninvoked afterwards. -/
theorem invariant_I2_violated :
    (run natFalsy (initQ []) [Op.next none, Op.add 7]).1.rejectList = [0] ∧
    (run natFalsy (initQ []) [Op.next none, Op.add 7, Op.clear]).2 =
      [Event.resolveCall 0 7, Event.rejectCall 0 QErr.cleared] := by
  refine ⟨rfl, rfl⟩

/-- Claim C4 fails on the code: adding `A1 = 0` and `A2 = 1` to an empty
queue and then issuing two `next()` calls does NOT resolve them with
`0, 1` in order.  The first `next()` shifts the falsy head `0`, drops it
and suspends; the second resolves with `1`.  The whole trace contains no
resolution of promise `0` with value `0`. -/
theorem fifo_order_violated_on_falsy :
    (run natFalsy (initQ []) [Op.add 0, Op.add 1, Op.next none, Op.next none]).2 =
      [Event.resolveCall 1 1] ∧
    Event.resolveCall 0 0 ∉
      (run natFalsy (initQ []) [Op.add 0, Op.add 1, Op.next none, Op.next none]).2 := by
  refine ⟨rfl, by decide⟩

/-- Claim C6 fails on the code: in a reachable state, a `next()` call
pending at the moment of `clear()` is NOT failed with `ClearedError`.
Register waiters `0`, `1`, `2` (only `2` with a timeout), fulfil waiter
`0` by `add 7` (which leaves its stale reject in `rejectList`), and let
waiter `2`'s timeout fire: the timeout splices `rejectList` at the index
of `2` in `resolveList` (namely 1), removing pending waiter `1`'s reject
callback instead of a stale one.  Waiter `1` is still pending at the
following `clear()` (it is in `resolveList`), yet the trace contains no
invocation at all for promise `1`: its promise never settles. -/
theorem clear_misses_pending_waiter :
    (run natFalsy (initQ [])
        [Op.next none, Op.next none, Op.next (some 5), Op.add 7,
         Op.fireTimer 2]).1.resolveList = [1] ∧
    (run natFalsy (initQ [])
        [Op.next none, Op.next none, Op.next (some 5), Op.add 7,
         Op.fireTimer 2, Op.clear]).2 =
      [Event.resolveCall 0 7, Event.rejectCall 2 QErr.timeout,
       Event.rejectCall 0 QErr.cleared, Event.rejectCall 2 QErr.cleared] ∧
    Event.rejectCall 1 QErr.cleared ∉
      (run natFalsy (initQ [])
        [Op.next none, Op.next none, Op.next (some 5), Op.add 7,
         Op.fireTimer 2, Op.clear]).2 := by
  refine ⟨rfl, rfl, by decide⟩

/-- Claim C10: `clear()` is idempotent on every state: a second `clear()`
immediately after a first one leaves the state unchanged and invokes no
callback (the first `clear` emptied `rejectList`, so the second has
nothing to reject). -/
theorem clear_idempotent {α : Type} (s : AsyncQueue α) :
    (clear (clear s).1).1 = (clear s).1 ∧ (clear (clear s).1).2 = [] := by
  refine ⟨rfl, rfl⟩

/-- Claim C9 (iterator modelled from the spec): iterating a queue holding
the values `1, 2, 3` added before a pending `clear()` consumes exactly
`[1, 2, 3]` and then terminates normally via the `ClearedError`
translation, propagating no error. -/
theorem iteration_consumes_then_terminates :
    iterate natFalsy (run natFalsy (initQ []) [Op.add 1, Op.add 2, Op.add 3]).1 =
      ([1, 2, 3], true) := by
  rfl

end AsyncQueueSpec

namespace AsyncQueueSpec

/-! Helper lemmas for the general theorems. -/

/-- Events of a concatenated run are the events of the first part followed
by the events of the second part run from the intermediate state. -/
theorem run_append_events {α : Type} (falsy : α → Bool) (l1 l2 : List (Op α)) :
    ∀ s : AsyncQueue α,
      (run falsy s (l1 ++ l2)).2 =
        (run falsy s l1).2 ++ (run falsy (run falsy s l1).1 l2).2 := by
  induction l1 with
  | nil => intro s; simp [run]
  | cons op ops ih =>
      intro s
      simp [run, ih, List.append_assoc]

/-- `pidRange n k` has length `k`. -/
theorem pidRange_length (n k : Nat) : (pidRange n k).length = k := by
  induction k generalizing n with
  | zero => rfl
  | succ k ih => simp [pidRange, ih]

/-- Running `k` `next()` calls without timeout on a queue with an empty
buffer registers the `k` fresh promise identifiers at the tail of
`resolveList` and `rejectList`, arms no timer, and emits no event. -/
theorem run_nexts {α : Type} (falsy : α → Bool) (k : Nat) :
    ∀ (rsl rjl tm : List Nat) (n : Nat),
      run falsy ⟨[], rsl, rjl, tm, n⟩ (List.replicate k (Op.next none)) =
        (⟨[], rsl ++ pidRange n k, rjl ++ pidRange n k, tm, n + k⟩, []) := by
  induction k with
  | zero => intro rsl rjl tm n; simp [run, pidRange]
  | succ k ih =>
      intro rsl rjl tm n
      rw [List.replicate_succ]
      simp only [run, step, next, registerWaiter, jsTruthyNat]
      simp only [List.head?, List.tail]
      rw [ih]
      simp [pidRange, List.append_assoc]
      omega

/-- Running one `add` per value of `V` against a state whose `resolveList`
holds at least `V.length` waiters fulfils the oldest waiters in order:
the i-th add resolves the i-th registered waiter with the i-th value, and
`rejectList` is left untouched. -/
theorem run_adds {α : Type} (falsy : α → Bool) (V : List α) :
    ∀ (R : List Nat), V.length ≤ R.length →
      ∀ (l : List α) (S tm : List Nat) (n : Nat),
        run falsy ⟨l, R, S, tm, n⟩ (V.map Op.add) =
          (⟨l, R.drop V.length, S, tm, n⟩,
           (R.zip V).map fun rv => Event.resolveCall rv.1 rv.2) := by
  induction V with
  | nil => intro R h l S tm n; simp [run]
  | cons v V ih =>
      intro R h l S tm n
      match R with
      | [] => simp at h
      | r :: R2 =>
          simp only [List.map, run, step, add]
          rw [ih R2 (by simpa using h)]
          simp [List.zip]

/-- Claim C5: for every sequence of `k` `next()` calls issued on an empty
queue before any `add()`, the `k` subsequent `add(V1) .. add(Vk)` calls
resolve the waiters with `V1 .. Vk` respectively, pairing waiters with
values in registration order: the whole run's event trace is exactly the
resolution of promise `i` with value `V(i+1)` for `i = 0 .. k-1`, in that
order (`pidRange 0 k` lists the promise identifiers in registration
order). -/
theorem symmetric_pairing {α : Type} (falsy : α → Bool) (V : List α) :
    (run falsy (initQ [])
        (List.replicate V.length (Op.next none) ++ V.map Op.add)).2 =
      ((pidRange 0 V.length).zip V).map fun rv => Event.resolveCall rv.1 rv.2 := by
  rw [run_append_events]
  rw [show (initQ [] : AsyncQueue α) = ⟨[], [], [], [], 0⟩ from rfl]
  rw [run_nexts]
  simp [run_adds falsy V (pidRange 0 V.length) (by simp [pidRange_length])]

/-- A single step emits no `Timeout` rejection for a promise whose timer
is not armed, and keeps that promise's timer unarmed (fresh identifiers
are all larger, and timers are only ever armed for the fresh identifier of
the current `next()` call). -/
theorem step_preserves_unarmed {α : Type} (falsy : α → Bool) (p : Nat)
    (s : AsyncQueue α) (op : Op α)
    (h1 : p ∉ s.timers) (h2 : p < s.nextId) :
    Event.rejectCall p QErr.timeout ∉ (step falsy s op).2 ∧
    p ∉ (step falsy s op).1.timers ∧ p < (step falsy s op).1.nextId := by
  match op with
  | Op.add v =>
      match hr : s.resolveList with
      | [] => simp [step, add, hr, h1, h2]
      | r :: rest => simp [step, add, hr, h1, h2]
  | Op.peek => exact ⟨by simp [step], h1, h2⟩
  | Op.clear =>
      refine ⟨?_, h1, h2⟩
      simp only [step, clear, List.mem_map]
      rintro ⟨q, hq, habs⟩
      cases habs
  | Op.next t =>
      have hne : p ≠ s.nextId := Nat.ne_of_lt h2
      match hl : s.list.head? with
      | some v =>
          by_cases hv : falsy v
          · simp only [step, next, hl, hv, if_true]
            refine ⟨by simp, ?_, by simp [registerWaiter]; omega⟩
            simp only [registerWaiter]
            by_cases ht : jsTruthyNat t
            · simp [ht, h1, hne]
            · simp [ht, h1]
          · simp only [step, next, hl, hv, if_false]
            refine ⟨by simp, h1, by simp; omega⟩
      | none =>
          simp only [step, next, hl]
          refine ⟨by simp, ?_, by simp [registerWaiter]; omega⟩
          simp only [registerWaiter]
          by_cases ht : jsTruthyNat t
          · simp [ht, h1, hne]
          · simp [ht, h1]
  | Op.fireTimer q =>
      by_cases hq : q ∈ s.timers
      · have hpq : p ≠ q := fun h => h1 (h ▸ hq)
        simp only [step, fireTimer, hq, if_true]
        by_cases hi : List.indexOf q (s.resolveList) < s.resolveList.length
        · simp only [hi, if_true]
          refine ⟨by simp [hpq], ?_, h2⟩
          intro hmem
          exact h1 (List.mem_of_mem_erase hmem)
        · simp only [hi, if_false]
          refine ⟨by simp, ?_, h2⟩
          intro hmem
          exact h1 (List.mem_of_mem_erase hmem)
      · simp [step, fireTimer, hq, h1, h2]

/-- A whole run emits no `Timeout` rejection for a promise whose timer is
not armed at the start of the run, provided the promise identifier is
below the freshness counter. -/
theorem run_preserves_unarmed {α : Type} (falsy : α → Bool) (p : Nat)
    (ops : List (Op α)) :
    ∀ s : AsyncQueue α, p ∉ s.timers → p < s.nextId →
      Event.rejectCall p QErr.timeout ∉ (run falsy s ops).2 ∧
      p ∉ (run falsy s ops).1.timers ∧ p < (run falsy s ops).1.nextId := by
  induction ops with
  | nil => intro s h1 h2; exact ⟨by simp [run], h1, h2⟩
  | cons op ops ih =>
      intro s h1 h2
      obtain ⟨he, ht, hn⟩ := step_preserves_unarmed falsy p s op h1 h2
      obtain ⟨ie, it, inn⟩ := ih (step falsy s op).1 ht hn
      refine ⟨?_, it, inn⟩
      simp only [run, List.mem_append]
      rintro (h | h)
      · exact he h
      · exact ie h

/-- Claim C7: when a `next(timeoutMillis)` call suspends (the shifted head
is absent or falsy) and `timeoutMillis` is `0` or omitted (its JavaScript
truthiness is false), the call registers its promise as a waiter but arms
no timer for it, and no later sequence of operations ever invokes that
promise's reject callback with the `Timeout` error: the waiter can only be
completed by a fulfilling `add()` or aborted by `clear()`.  The
`hwf` hypothesis is the freshness invariant of the identifier counter,
which holds in every reachable state. -/
theorem no_timeout_when_unarmed {α : Type} (falsy : α → Bool)
    (s : AsyncQueue α) (t : Option Nat)
    (hwf : ∀ q ∈ s.timers, q < s.nextId)
    (hsusp : truthy falsy s.list.head? = false)
    (ht : jsTruthyNat t = false) :
    s.nextId ∈ ((next falsy s t).1).resolveList ∧
    s.nextId ∉ ((next falsy s t).1).timers ∧
    ∀ ops : List (Op α),
      Event.rejectCall s.nextId QErr.timeout ∉ (run falsy ((next falsy s t).1) ops).2 := by
  have hreg : (next falsy s t).1 =
      registerWaiter { s with list := s.list.tail, nextId := s.nextId + 1 } s.nextId t := by
    match hl : s.list.head? with
    | none => simp [next, hl]
    | some v =>
        have hv : falsy v = true := by
          simpa [truthy, hl] using hsusp
        simp [next, hl, hv]
  have hnotin : s.nextId ∉ s.timers := fun h => absurd (hwf _ h) (lt_irrefl _)
  rw [hreg]
  have htimers :
      (registerWaiter { s with list := s.list.tail, nextId := s.nextId + 1 } s.nextId t).timers =
        s.timers := by
    simp [registerWaiter, ht]
  refine ⟨?_, ?_, ?_⟩
  · simp [registerWaiter]
  · rw [htimers]; exact hnotin
  · intro ops
    have h := run_preserves_unarmed falsy s.nextId ops
      (registerWaiter { s with list := s.list.tail, nextId := s.nextId + 1 } s.nextId t)
      (by rw [htimers]; exact hnotin)
      (by simp [registerWaiter])
    exact h.1

/-- Witness for claim C7: on a fresh empty queue, `next()` without a
timeout registers promise `0` as a waiter, arms no timer, and a subsequent
`clear()` run emits no `Timeout` rejection for it. -/
theorem no_timeout_when_unarmed_witness :
    ((∀ q ∈ (initQ ([] : List Nat)).timers, q < (initQ ([] : List Nat)).nextId) ∧
     truthy natFalsy (initQ ([] : List Nat)).list.head? = false ∧
     jsTruthyNat none = false) ∧
    (0 ∈ ((next natFalsy (initQ []) none).1).resolveList ∧
     0 ∉ ((next natFalsy (initQ []) none).1).timers ∧
     Event.rejectCall 0 QErr.timeout ∉
       (run natFalsy ((next natFalsy (initQ []) none).1) [Op.clear]).2) := by
  refine ⟨⟨by decide, by decide, by decide⟩, ?_⟩
  have h := no_timeout_when_unarmed natFalsy (initQ []) none (by decide) (by decide) (by decide)
  exact ⟨h.1, h.2.1, h.2.2 [Op.clear]⟩

/-- Claim C8: on an empty queue with exactly two pending `next()` calls of
which only the first armed a timeout `t ≠ 0`, letting that timeout elapse
before any `add()` or `clear()` rejects only the first promise with the
`Timeout` error; the second waiter is still registered afterwards, and a
subsequent `add(v)` resolves the second promise with `v`. -/
theorem timeout_isolation {α : Type} (falsy : α → Bool) (v : α) (t : Nat)
    (h : t ≠ 0) :
    (run falsy (initQ [])
        [Op.next (some t), Op.next none, Op.fireTimer 0, Op.add v]).2 =
      [Event.rejectCall 0 QErr.timeout, Event.resolveCall 1 v] ∧
    1 ∈ (run falsy (initQ [])
        [Op.next (some t), Op.next none, Op.fireTimer 0]).1.resolveList := by
  have ht : jsTruthyNat (some t) = true := by
    simp [jsTruthyNat, h]
  have hstep : step falsy (initQ [] : AsyncQueue α) (Op.next (some t)) =
      (⟨[], [0], [0], [0], 1⟩, []) := by
    simp [step, next, initQ, registerWaiter, ht]
  constructor
  · simp only [run]
    rw [hstep]
    rfl
  · simp only [run]
    rw [hstep]
    exact List.Mem.head _

/-- Witness for claim C8: the concrete instance with timeout `5` and added
value `7`. -/
theorem timeout_isolation_witness :
    (5 ≠ 0) ∧
    ((run natFalsy (initQ [])
        [Op.next (some 5), Op.next none, Op.fireTimer 0, Op.add 7]).2 =
      [Event.rejectCall 0 QErr.timeout, Event.resolveCall 1 7] ∧
     1 ∈ (run natFalsy (initQ [])
        [Op.next (some 5), Op.next none, Op.fireTimer 0]).1.resolveList) :=
  ⟨by decide, timeout_isolation natFalsy 7 5 (by decide)⟩

end AsyncQueueSpec
